import Mathlib

/-!
Shallow embedding of the persistence and authentication core of the
LedgerFlow expense tracker (src/app.py): the two sqlite stores, the CRUD
functions over them, and the budget-percentage computation of the main
page.  Amounts are embedded as rationals, timestamps and salts as natural
numbers passed explicitly where the source calls datetime.now() or
gensalt(), and the YYYY-MM-DD date text as a record of its components.
-/

namespace LedgerFlow

/-- Calendar date, embedding the YYYY-MM-DD date text by components. -/
structure CalDate where
  year : Nat
  month : Nat
  day : Nat
deriving DecidableEq

/-- Row of the expenses table created by init_expense_tracker_db. -/
structure ExpenseRow where
  id : Nat
  user_id : String
  amount : ℚ
  description : String
  category : String
  date : CalDate
  timestamp : Nat
deriving DecidableEq

/-- Row of the budget table created by init_expense_tracker_db
(user_id is the primary key). -/
structure BudgetRow where
  user_id : String
  amount : ℚ
  last_updated : Nat
deriving DecidableEq

/-- State of expense_tracker.db: the expenses table together with its
AUTOINCREMENT counter, and the budget table. -/
structure TrackerDB where
  expenses : List ExpenseRow
  next_id : Nat
  budget : List BudgetRow
deriving DecidableEq

/-- The expense_data dict handed to add_expense and update_expense. -/
structure ExpenseData where
  amount : ℚ
  description : String
  category : String
  date : CalDate
deriving DecidableEq

/-- Visible outcome of a mutation: success message, the
not-found-or-no-permission warning, or the no-user-logged-in error. -/
inductive OpResult where
  | ok
  | notFoundOrForbidden
  | noUser
deriving DecidableEq

/-- Python truthiness of the current_user_id argument: None and the
empty string are falsy, every other string truthy. -/
def user_truthy : Option String → Bool
  | none => false
  | some s => !(s == "")

/-- Python truthiness of the optional month and year arguments: None
and 0 are falsy. -/
def int_truthy : Option Nat → Bool
  | none => false
  | some n => !(n == 0)

/-- The month and year scoping of get_expenses: both truthy compares the
%Y-%m strftime of the date, year alone compares %Y, otherwise no date
condition is added to the WHERE clause. -/
def date_filter (month year : Option Nat) (d : CalDate) : Bool :=
  if int_truthy year && int_truthy month then
    d.year == year.getD 0 && d.month == month.getD 0
  else if int_truthy year then
    d.year == year.getD 0
  else
    true

/-- The ORDER BY timestamp DESC relation of get_expenses. -/
def ts_desc (a b : ExpenseRow) : Prop :=
  b.timestamp ≤ a.timestamp

instance : DecidableRel ts_desc :=
  fun a b => Nat.decLe b.timestamp a.timestamp

instance : IsTotal ExpenseRow ts_desc :=
  ⟨fun a b => (Nat.le_total a.timestamp b.timestamp).symm⟩

instance : IsTrans ExpenseRow ts_desc :=
  ⟨fun _ _ _ h1 h2 => le_trans h2 h1⟩

/-- get_expenses: the empty list when no user is logged in, otherwise
the rows of that user passing the month or year scope, ordered by
descending timestamp. -/
def get_expenses (current_user_id : Option String) (month year : Option Nat)
    (db : TrackerDB) : List ExpenseRow :=
  if !user_truthy current_user_id then []
  else
    List.insertionSort ts_desc
      (db.expenses.filter fun r =>
        r.user_id == current_user_id.getD "" && date_filter month year r.date)

/-- add_expense: returns the new database state paired with the Python
return value; the source function has no return statement, so that value
is None on every path, embedded as `none`.  The INSERT takes the next
AUTOINCREMENT id and stamps datetime.now(), passed here as `now`. -/
def add_expense (expense_data : ExpenseData) (current_user_id : Option String)
    (now : Nat) (db : TrackerDB) : TrackerDB × Option Nat :=
  if !user_truthy current_user_id then (db, none)
  else
    ({ db with
        expenses := db.expenses ++
          [{ id := db.next_id
             user_id := current_user_id.getD ""
             amount := expense_data.amount
             description := expense_data.description
             category := expense_data.category
             date := expense_data.date
             timestamp := now }]
        next_id := db.next_id + 1 }, none)

/-- The WHERE id = ? AND user_id = ? condition shared by update_expense
and delete_expense. -/
def expense_matches (expense_id : Nat) (u : String) (r : ExpenseRow) : Bool :=
  r.id == expense_id && r.user_id == u

/-- update_expense: one UPDATE statement scoped by id and user_id that
rewrites amount, description, category and date; the rowcount then
selects the success or the not-found warning. -/
def update_expense (expense_id : Nat) (expense_data : ExpenseData)
    (current_user_id : Option String) (db : TrackerDB) : TrackerDB × OpResult :=
  if !user_truthy current_user_id then (db, OpResult.noUser)
  else
    let u := current_user_id.getD ""
    ({ db with
        expenses := db.expenses.map fun r =>
          if expense_matches expense_id u r then
            { r with
                amount := expense_data.amount
                description := expense_data.description
                category := expense_data.category
                date := expense_data.date }
          else r },
      if 0 < db.expenses.countP (expense_matches expense_id u) then OpResult.ok
      else OpResult.notFoundOrForbidden)

/-- delete_expense: one DELETE statement scoped by id and user_id; the
rowcount then selects the success or the not-found warning. -/
def delete_expense (expense_id : Nat) (current_user_id : Option String)
    (db : TrackerDB) : TrackerDB × OpResult :=
  if !user_truthy current_user_id then (db, OpResult.noUser)
  else
    let u := current_user_id.getD ""
    ({ db with
        expenses := db.expenses.filter fun r => !expense_matches expense_id u r },
      if 0 < db.expenses.countP (expense_matches expense_id u) then OpResult.ok
      else OpResult.notFoundOrForbidden)

/-- get_budget: the empty dict returned for a missing user or row is
embedded as `none`, the amount and lastUpdated dict as `some`. -/
def get_budget (current_user_id : Option String) (db : TrackerDB) :
    Option (ℚ × Nat) :=
  if !user_truthy current_user_id then none
  else
    match db.budget.find? (fun b => b.user_id == current_user_id.getD "") with
    | some b => some (b.amount, b.last_updated)
    | none => none

/-- set_budget: INSERT OR REPLACE keyed on the user_id primary key:
any conflicting row is removed and the fresh row inserted, with
last_updated set to datetime.now(), passed here as `now`. -/
def set_budget (amount : ℚ) (current_user_id : Option String) (now : Nat)
    (db : TrackerDB) : TrackerDB :=
  if !user_truthy current_user_id then db
  else
    { db with budget :=
        (db.budget.filter fun b => !(b.user_id == current_user_id.getD "")) ++
        [{ user_id := current_user_id.getD ""
           amount := amount
           last_updated := now }] }

/-- Idealized embedding of the bcrypt library calls used by the source:
hashpw keeps the salt and the hashed password, and checkpw succeeds
exactly on that password. -/
structure BCryptHash where
  salt : Nat
  pw : String
deriving DecidableEq

/-- bcrypt hashpw with an explicit gensalt() value. -/
def hashpw (password : String) (salt : Nat) : BCryptHash :=
  { salt := salt, pw := password }

/-- bcrypt checkpw. -/
def checkpw (password : String) (h : BCryptHash) : Bool :=
  password == h.pw

/-- Row of the users table created by init_users_db. -/
structure UserRow where
  id : Nat
  username : String
  password : BCryptHash
deriving DecidableEq

/-- State of users.db: the users table with its AUTOINCREMENT counter. -/
structure UsersDB where
  users : List UserRow
  next_id : Nat
deriving DecidableEq

/-- register_user: the UNIQUE constraint on username makes the INSERT
raise IntegrityError when the username is already present, which the
source catches and turns into False; otherwise the row is inserted and
True returned. -/
def register_user (username password : String) (salt : Nat) (db : UsersDB) :
    UsersDB × Bool :=
  if db.users.any (fun u => u.username == username) then (db, false)
  else
    ({ users := db.users ++
        [{ id := db.next_id
           username := username
           password := hashpw password salt }]
       next_id := db.next_id + 1 }, true)

/-- verify_user: fetchone of the password for the (unique) username,
then checkpw; False when the username is absent. -/
def verify_user (username password : String) (db : UsersDB) : Bool :=
  match db.users.find? (fun u => u.username == username) with
  | some u => checkpw password u.password
  | none => false

/-- total_spending in show_main_app: the sum of amount over the fetched
expenses. -/
def total_spending (expenses : List ExpenseRow) : ℚ :=
  (expenses.map (·.amount)).sum

/-- Python float truthiness: 0.0 is falsy. -/
def amount_truthy (q : ℚ) : Bool :=
  !(q == 0)

/-- budget_percentage in show_main_app: 0 without a positive budget,
otherwise min(100, total / budget * 100). -/
def budget_percentage (current_budget_amount : Option ℚ) (total : ℚ) : ℚ :=
  match current_budget_amount with
  | some a =>
      if amount_truthy a && decide (0 < a) then min 100 (total / a * 100)
      else 0
  | none => 0

/-- COLOR_SUCCESS of the palette. -/
def COLOR_SUCCESS : String := "#228B22"

/-- COLOR_ERROR of the palette. -/
def COLOR_ERROR : String := "#B22222"

/-- COLOR_WARNING of the palette. -/
def COLOR_WARNING : String := "#FFD700"

/-- progress_color_bar assignment in show_main_app: green, overridden
to gold above 75, overridden to red above 100. -/
def progress_color_bar (p : ℚ) : String :=
  let c := COLOR_SUCCESS
  let c := if 75 < p then COLOR_WARNING else c
  if 100 < p then COLOR_ERROR else c

/-- Empty tracker database, as after init_expense_tracker_db on a fresh
file (AUTOINCREMENT starts at 1). -/
def empty_db : TrackerDB :=
  { expenses := [], next_id := 1, budget := [] }

/-- Empty users database, as after init_users_db on a fresh file. -/
def empty_users : UsersDB :=
  { users := [], next_id := 1 }

/-- C10: with a falsy user id (None or the empty string) every store
operation degrades without touching the database: the reads return
empty results and the writes return early with no mutation. -/
theorem C10_falsy_user_noop (db : TrackerDB) (m y : Option Nat)
    (d : ExpenseData) (a : ℚ) (expense_id now : Nat) :
    get_expenses none m y db = [] ∧
    get_expenses (some "") m y db = [] ∧
    get_budget none db = none ∧
    get_budget (some "") db = none ∧
    add_expense d none now db = (db, none) ∧
    add_expense d (some "") now db = (db, none) ∧
    set_budget a none now db = db ∧
    set_budget a (some "") now db = db ∧
    update_expense expense_id d none db = (db, OpResult.noUser) ∧
    update_expense expense_id d (some "") db = (db, OpResult.noUser) ∧
    delete_expense expense_id none db = (db, OpResult.noUser) ∧
    delete_expense expense_id (some "") db = (db, OpResult.noUser) :=
  ⟨rfl, rfl, rfl, rfl, rfl, rfl, rfl, rfl, rfl, rfl, rfl, rfl⟩

/-- C1: contrary to the claim, the budget-percentage computation in
show_main_app clamps at 100: at budget 200 and total 250 it yields 100,
not the unclamped 125, and the over-budget colour branch of the progress
bar (red above 100) can therefore never fire. -/
theorem C1_percentage_clamped_code_bug :
    budget_percentage (some 200) 250 = 100 ∧
    budget_percentage (some 200) 250 ≠ 125 ∧
    ∀ b t, progress_color_bar (budget_percentage b t) ≠ COLOR_ERROR := by
  have hle : ∀ b t, budget_percentage b t ≤ 100 := by
    intro b t
    match b with
    | none => simp [budget_percentage]
    | some a =>
      simp only [budget_percentage]
      split
      · exact min_le_left _ _
      · norm_num
  have h200 : budget_percentage (some 200) 250 = 100 := by
    have hc : (amount_truthy 200 && decide ((0 : ℚ) < 200)) = true := by decide
    simp only [budget_percentage, hc, if_true]
    rw [show (250 : ℚ) / 200 * 100 = 125 by norm_num]
    exact min_eq_left (by norm_num)
  refine ⟨h200, by rw [h200]; norm_num, ?_⟩
  intro b t
  unfold progress_color_bar
  rw [if_neg (not_lt.mpr (hle b t))]
  split
  · decide
  · decide

/-- C2 counterexample: set_budget applies no amount validation: called
with the non-positive amount -5 it writes a Budget row rather than
rejecting the call. -/
theorem C2_counterexample :
    (set_budget (-5) (some "alice") 7 empty_db).budget =
      [{ user_id := "alice", amount := -5, last_updated := 7 }] := by
  decide

/-- C2 (amended): set_budget does not itself reject non-positive
amounts: for every logged-in user and every amount, positive or not, it
upserts the single Budget row of that user, setting last_updated to the
call instant, and leaves the expenses table untouched. -/
theorem C2_set_budget_upserts (a : ℚ) (u : String) (hu : u ≠ "") (now : Nat)
    (db : TrackerDB) :
    (set_budget a (some u) now db).budget.filter (fun b => b.user_id == u) =
      [{ user_id := u, amount := a, last_updated := now }] ∧
    (set_budget a (some u) now db).budget.filter (fun b => !(b.user_id == u)) =
      db.budget.filter (fun b => !(b.user_id == u)) ∧
    (set_budget a (some u) now db).expenses = db.expenses := by
  have htru : user_truthy (some u) = true := by
    simp [user_truthy, hu]
  refine ⟨?_, ?_, ?_⟩ <;>
    simp [set_budget, htru, List.filter_append, List.filter_filter]

/-- C2 witness: the amended upsert behaviour at a concrete call. -/
theorem C2_set_budget_upserts_witness :
    (set_budget (-5) (some "alice") 7 empty_db).budget.filter
        (fun b => b.user_id == "alice") =
      [{ user_id := "alice", amount := -5, last_updated := 7 }] :=
  (C2_set_budget_upserts (-5) "alice" (by decide) 7 empty_db).1

/-- C7: register_user with a username already present returns False and
leaves the credential store, hence the stored hash of that username,
unchanged. -/
theorem C7_duplicate_username (username password : String) (salt : Nat)
    (db : UsersDB) (u0 : UserRow) (h0 : u0 ∈ db.users)
    (hname : u0.username = username) :
    register_user username password salt db = (db, false) := by
  have hany : db.users.any (fun u => u.username == username) = true :=
    List.any_eq_true.mpr ⟨u0, h0, by simp [hname]⟩
  simp [register_user, hany]

/-- One-user credential store obtained by an initial registration. -/
def one_user_db : UsersDB := (register_user "alice" "hunter2" 0 empty_users).1

/-- C7 witness: re-registering alice fails and mutates nothing. -/
theorem C7_duplicate_username_witness :
    register_user "alice" "other" 1 one_user_db = (one_user_db, false) :=
  C7_duplicate_username "alice" "other" 1 one_user_db
    { id := 1, username := "alice", password := hashpw "hunter2" 0 }
    (by decide) (by decide)

/-- Sample expense payload used by the concrete instances. -/
def sample_data : ExpenseData :=
  { amount := 5, description := "coffee", category := "Food",
    date := { year := 2024, month := 1, day := 15 } }

/-- C3 counterexample: add_expense persists the new row under the fresh
id 1 yet returns None, not the new id. -/
theorem C3_counterexample :
    (add_expense sample_data (some "alice") 3 empty_db).1.expenses.map
        (fun r => r.id) = [1] ∧
    (add_expense sample_data (some "alice") 3 empty_db).2 = none ∧
    (add_expense sample_data (some "alice") 3 empty_db).2 ≠ some 1 :=
  ⟨rfl, rfl, by decide⟩

/-- C3 (amended): for a logged-in user add_expense appends exactly one
new row, carrying the fresh AUTOINCREMENT id and the creation
timestamp, leaves the budget table untouched, keeps every id below the
counter, and returns None: the new id is not handed back to the
caller. -/
theorem C3_add_expense (d : ExpenseData) (u : String) (hu : u ≠ "")
    (now : Nat) (db : TrackerDB)
    (hfresh : ∀ r ∈ db.expenses, r.id < db.next_id) :
    (add_expense d (some u) now db).1.expenses =
      db.expenses ++
        [{ id := db.next_id, user_id := u, amount := d.amount,
           description := d.description, category := d.category,
           date := d.date, timestamp := now }] ∧
    (∀ r ∈ db.expenses, r.id ≠ db.next_id) ∧
    (add_expense d (some u) now db).1.budget = db.budget ∧
    (add_expense d (some u) now db).2 = none ∧
    (∀ r ∈ (add_expense d (some u) now db).1.expenses,
      r.id < (add_expense d (some u) now db).1.next_id) := by
  have htru : user_truthy (some u) = true := by
    simp [user_truthy, hu]
  have hres : add_expense d (some u) now db =
      ({ expenses := db.expenses ++
            [{ id := db.next_id, user_id := u, amount := d.amount,
               description := d.description, category := d.category,
               date := d.date, timestamp := now }],
         next_id := db.next_id + 1,
         budget := db.budget }, none) := by
    simp [add_expense, htru]
  rw [hres]
  refine ⟨rfl, ?_, rfl, rfl, ?_⟩
  · intro r hr
    exact Nat.ne_of_lt (hfresh r hr)
  · intro r hr
    rcases List.mem_append.mp hr with hr | hr
    · exact Nat.lt_succ_of_lt (hfresh r hr)
    · rw [List.mem_singleton] at hr
      subst hr
      exact Nat.lt_succ_self _

/-- C3 witness: the amended behaviour at a concrete call. -/
theorem C3_add_expense_witness :
    (add_expense sample_data (some "alice") 3 empty_db).1.budget =
      empty_db.budget :=
  (C3_add_expense sample_data "alice" (by decide) 3 empty_db
    (by simp [empty_db])).2.2.1

/-- C6: registering a fresh username succeeds, after which verify_user
accepts exactly the registered password and rejects every other one;
verify_user of a username absent from the store returns false. -/
theorem C6_register_then_verify (username password : String) (salt : Nat)
    (db : UsersDB) (hfresh : ∀ u ∈ db.users, u.username ≠ username) :
    (register_user username password salt db).2 = true ∧
    verify_user username password
      (register_user username password salt db).1 = true ∧
    (∀ wrong, wrong ≠ password →
      verify_user username wrong
        (register_user username password salt db).1 = false) ∧
    (∀ name pw, (∀ u ∈ db.users, u.username ≠ name) →
      verify_user name pw db = false) := by
  have hany : db.users.any (fun u => u.username == username) = false :=
    List.any_eq_false.mpr (fun u hu => by simp [hfresh u hu])
  have hreg : register_user username password salt db =
      ({ users := db.users ++
            [{ id := db.next_id, username := username,
               password := hashpw password salt }],
         next_id := db.next_id + 1 }, true) := by
    simp [register_user, hany]
  have hnone : db.users.find? (fun u => u.username == username) = none :=
    List.find?_eq_none.mpr (fun u hu => by simp [hfresh u hu])
  have hfind : ∀ pw₀ : String,
      ((register_user username password salt db).1.users.find?
        (fun u => u.username == username)) =
        some { id := db.next_id, username := username,
               password := hashpw password salt } := by
    intro pw₀
    rw [hreg]
    simp only [List.find?_append, hnone, Option.none_or]
    simp [List.find?]
  refine ⟨by rw [hreg], ?_, ?_, ?_⟩
  · rw [verify_user, hfind password]
    simp [checkpw, hashpw]
  · intro wrong hwrong
    rw [verify_user, hfind wrong]
    simp [checkpw, hashpw, hwrong]
  · intro name pw habs
    rw [verify_user, List.find?_eq_none.mpr (fun u hu => by simp [habs u hu])]

/-- C6 witness: register then verify at concrete credentials. -/
theorem C6_register_then_verify_witness :
    verify_user "alice" "hunter2"
      (register_user "alice" "hunter2" 0 empty_users).1 = true :=
  (C6_register_then_verify "alice" "hunter2" 0 empty_users
    (by simp [empty_users])).2.1

/-- Filtering for a predicate right after filtering for its negation
yields nothing. -/
theorem filter_of_filter_not {α} (p : α → Bool) (l : List α) :
    (l.filter fun a => !(p a)).filter p = [] := by
  rw [List.filter_filter]
  exact List.filter_eq_nil_iff.mpr fun a _ => by cases hpa : p a <;> simp [hpa]

/-- A doubly filtered list is no longer than the list filtered by the
outer predicate alone. -/
theorem length_filter_filter_le {α} (p q : α → Bool) (l : List α) :
    ((l.filter q).filter p).length ≤ (l.filter p).length := by
  rw [List.filter_filter, ← List.countP_eq_length_filter,
    ← List.countP_eq_length_filter]
  exact List.countP_mono_left fun a _ h => ((Bool.and_eq_true _ _).mp h).1

/-- Invariant of the budget table: at most one Budget row per user. -/
def at_most_one_budget (db : TrackerDB) : Prop :=
  ∀ u : String, (db.budget.filter fun b => b.user_id == u).length ≤ 1

/-- C5: every store operation preserves the at-most-one-Budget-row-per-
user invariant, and set_budget 1000 then 1500 for the same user leaves
exactly one Budget row for that user, with amount 1500. -/
theorem C5_budget_invariant (db : TrackerDB) (hdb : at_most_one_budget db) :
    (∀ a uid now, at_most_one_budget (set_budget a uid now db)) ∧
    (∀ d uid now, at_most_one_budget (add_expense d uid now db).1) ∧
    (∀ expense_id d uid,
      at_most_one_budget (update_expense expense_id d uid db).1) ∧
    (∀ expense_id uid,
      at_most_one_budget (delete_expense expense_id uid db).1) ∧
    (∀ u : String, u ≠ "" → ∀ t1 t2,
      ((set_budget 1500 (some u) t2
          (set_budget 1000 (some u) t1 db)).budget.filter
        fun b => b.user_id == u) =
      [{ user_id := u, amount := 1500, last_updated := t2 }]) := by
  have hset : ∀ a uid now, at_most_one_budget (set_budget a uid now db) := by
    intro a uid now
    by_cases htru : user_truthy uid = true
    · have hb : (set_budget a uid now db).budget =
          (db.budget.filter fun b => !(b.user_id == uid.getD "")) ++
            [{ user_id := uid.getD "", amount := a, last_updated := now }] := by
        simp [set_budget, htru]
      intro u
      rw [hb, List.filter_append, List.length_append]
      by_cases hu : uid.getD "" = u
      · subst hu
        rw [filter_of_filter_not]
        simp
      · have h1 : ((db.budget.filter fun b => !(b.user_id == uid.getD "")).filter
            fun b => b.user_id == u).length ≤
            (db.budget.filter fun b => b.user_id == u).length :=
          length_filter_filter_le _ _ _
        have h2 := hdb u
        simp only [List.filter_cons, List.filter_nil]
        rw [if_neg (by simp [hu])]
        simpa using le_trans h1 h2
    · intro u
      have hb : set_budget a uid now db = db := by simp [set_budget, htru]
      rw [hb]
      exact hdb u
  have hadd : ∀ d uid now, (add_expense d uid now db).1.budget = db.budget := by
    intro d uid now
    by_cases h : user_truthy uid = true <;> simp [add_expense, h]
  have hupd : ∀ expense_id d uid,
      (update_expense expense_id d uid db).1.budget = db.budget := by
    intro expense_id d uid
    by_cases h : user_truthy uid = true <;> simp [update_expense, h]
  have hdel : ∀ expense_id uid,
      (delete_expense expense_id uid db).1.budget = db.budget := by
    intro expense_id uid
    by_cases h : user_truthy uid = true <;> simp [delete_expense, h]
  refine ⟨hset, ?_, ?_, ?_, ?_⟩
  · intro d uid now u
    rw [hadd d uid now]
    exact hdb u
  · intro expense_id d uid u
    rw [hupd expense_id d uid]
    exact hdb u
  · intro expense_id uid u
    rw [hdel expense_id uid]
    exact hdb u
  · intro u hu t1 t2
    have htru : user_truthy (some u) = true := by simp [user_truthy, hu]
    simp [set_budget, htru, List.filter_append, List.filter_filter]

/-- C5 witness: the double set at a concrete user and store. -/
theorem C5_budget_invariant_witness :
    ((set_budget 1500 (some "alice") 2
        (set_budget 1000 (some "alice") 1 empty_db)).budget.filter
      fun b => b.user_id == "alice") =
    [{ user_id := "alice", amount := 1500, last_updated := 2 }] :=
  (C5_budget_invariant empty_db (by intro u; simp [empty_db])).2.2.2.2
    "alice" (by decide) 1 2

/-- C4: for a logged-in user, get_expenses returns exactly the rows of
that user in the requested scope - the calendar month when both year
and month are given, the calendar year when only the year is given,
everything otherwise - never a row of another user, ordered by
descending timestamp; an empty selection yields the empty list. -/
theorem C4_get_expenses_scope (u : String) (hu : u ≠ "") (m y : Nat)
    (hm : 1 ≤ m ∧ m ≤ 12) (hy : 1 ≤ y) (db : TrackerDB) :
    (get_expenses (some u) (some m) (some y) db).Perm
      (db.expenses.filter fun r =>
        decide (r.user_id = u ∧ r.date.year = y ∧ r.date.month = m)) ∧
    (get_expenses (some u) none (some y) db).Perm
      (db.expenses.filter fun r =>
        decide (r.user_id = u ∧ r.date.year = y)) ∧
    (get_expenses (some u) none none db).Perm
      (db.expenses.filter fun r => decide (r.user_id = u)) ∧
    (∀ m1 y1 r, r ∈ get_expenses (some u) m1 y1 db → r.user_id = u) ∧
    (∀ m1 y1, (get_expenses (some u) m1 y1 db).Sorted ts_desc) ∧
    ((db.expenses.filter fun r =>
        decide (r.user_id = u ∧ r.date.year = y ∧ r.date.month = m)) = [] →
      get_expenses (some u) (some m) (some y) db = []) := by
  have htru : user_truthy (some u) = true := by
    simp [user_truthy, hu]
  have hge : ∀ m1 y1, get_expenses (some u) m1 y1 db =
      List.insertionSort ts_desc (db.expenses.filter fun r =>
        r.user_id == u && date_filter m1 y1 r.date) := by
    intro m1 y1
    simp [get_expenses, htru]
  have hperm : ∀ m1 y1, (get_expenses (some u) m1 y1 db).Perm
      (db.expenses.filter fun r =>
        r.user_id == u && date_filter m1 y1 r.date) := by
    intro m1 y1
    rw [hge]
    exact List.perm_insertionSort _ _
  have hmne : m ≠ 0 := by omega
  have hyne : y ≠ 0 := by omega
  have hf_my : (db.expenses.filter fun r =>
      r.user_id == u && date_filter (some m) (some y) r.date) =
      db.expenses.filter fun r =>
        decide (r.user_id = u ∧ r.date.year = y ∧ r.date.month = m) := by
    apply List.filter_congr
    intro r _
    rw [Bool.eq_iff_iff]
    simp [date_filter, int_truthy, hmne, hyne, and_assoc, and_comm]
  have hf_y : (db.expenses.filter fun r =>
      r.user_id == u && date_filter none (some y) r.date) =
      db.expenses.filter fun r => decide (r.user_id = u ∧ r.date.year = y) := by
    apply List.filter_congr
    intro r _
    rw [Bool.eq_iff_iff]
    simp [date_filter, int_truthy, hyne]
  have hf_none : (db.expenses.filter fun r =>
      r.user_id == u && date_filter none none r.date) =
      db.expenses.filter fun r => decide (r.user_id = u) := by
    apply List.filter_congr
    intro r _
    rw [Bool.eq_iff_iff]
    simp [date_filter, int_truthy]
  refine ⟨?_, ?_, ?_, ?_, ?_, ?_⟩
  · rw [← hf_my]
    exact hperm (some m) (some y)
  · rw [← hf_y]
    exact hperm none (some y)
  · rw [← hf_none]
    exact hperm none none
  · intro m1 y1 r hr
    have hr2 := (hperm m1 y1).mem_iff.mp hr
    have := (List.mem_filter.mp hr2).2
    simpa using ((Bool.and_eq_true _ _).mp this).1
  · intro m1 y1
    rw [hge]
    exact List.sorted_insertionSort ts_desc _
  · intro hnil
    have h1 := hperm (some m) (some y)
    rw [hf_my, hnil] at h1
    exact h1.eq_nil

/-- Four-row store matching the filtering example of the spec: three
rows of alice dated 2024-01-15, 2024-02-01 and 2023-12-31, plus one row
of bob. -/
def sample_db : TrackerDB :=
  { expenses :=
      [{ id := 1, user_id := "alice", amount := 10, description := "a",
         category := "Food", date := { year := 2024, month := 1, day := 15 },
         timestamp := 1 },
       { id := 2, user_id := "alice", amount := 20, description := "b",
         category := "Transport",
         date := { year := 2024, month := 2, day := 1 }, timestamp := 2 },
       { id := 3, user_id := "alice", amount := 30, description := "c",
         category := "Misc", date := { year := 2023, month := 12, day := 31 },
         timestamp := 3 },
       { id := 4, user_id := "bob", amount := 40, description := "d",
         category := "Food", date := { year := 2024, month := 1, day := 2 },
         timestamp := 4 }],
    next_id := 5,
    budget := [] }

/-- C4 witness: month scoping at the concrete store of the spec
example. -/
theorem C4_get_expenses_scope_witness :
    (get_expenses (some "alice") (some 1) (some 2024) sample_db).Perm
      (sample_db.expenses.filter fun r =>
        decide (r.user_id = "alice" ∧ r.date.year = 2024 ∧
          r.date.month = 1)) :=
  (C4_get_expenses_scope "alice" (by decide) 1 2024 (by omega) (by omega)
    sample_db).1

/-- C8: update_expense rewrites only the amount, description, category
and date of the rows matching both the id and the user, keeping their
id, owner and timestamp; every other row and the budget table are
untouched; with duplicate-free ids at most one row can match; with no
matching row it reports the not-found-or-forbidden outcome and changes
nothing, and with one it reports success. -/
theorem C8_update_expense_frame (expense_id : Nat) (d : ExpenseData)
    (u : String) (hu : u ≠ "") (db : TrackerDB) :
    List.Forall₂ (fun old new =>
        (¬(old.id = expense_id ∧ old.user_id = u) → new = old) ∧
        (old.id = expense_id → old.user_id = u →
          new.id = old.id ∧ new.user_id = old.user_id ∧
          new.timestamp = old.timestamp ∧ new.amount = d.amount ∧
          new.description = d.description ∧ new.category = d.category ∧
          new.date = d.date))
      db.expenses (update_expense expense_id d (some u) db).1.expenses ∧
    (update_expense expense_id d (some u) db).1.budget = db.budget ∧
    ((db.expenses.map fun r => r.id).Nodup →
      ∀ r1 ∈ db.expenses, ∀ r2 ∈ db.expenses,
        r1.id = expense_id → r1.user_id = u →
        r2.id = expense_id → r2.user_id = u → r1 = r2) ∧
    ((∀ r ∈ db.expenses, ¬(r.id = expense_id ∧ r.user_id = u)) →
      update_expense expense_id d (some u) db =
        (db, OpResult.notFoundOrForbidden)) ∧
    ((∃ r ∈ db.expenses, r.id = expense_id ∧ r.user_id = u) →
      (update_expense expense_id d (some u) db).2 = OpResult.ok) := by
  have htru : user_truthy (some u) = true := by
    simp [user_truthy, hu]
  have hmatch : ∀ r : ExpenseRow, expense_matches expense_id u r = true ↔
      (r.id = expense_id ∧ r.user_id = u) := by
    intro r
    simp [expense_matches]
  have hres : update_expense expense_id d (some u) db =
      ({ db with expenses := db.expenses.map fun r =>
            if expense_matches expense_id u r then
              { r with amount := d.amount, description := d.description,
                       category := d.category, date := d.date }
            else r },
        if 0 < db.expenses.countP (expense_matches expense_id u) then
          OpResult.ok
        else OpResult.notFoundOrForbidden) := by
    simp [update_expense, htru]
  refine ⟨?_, ?_, ?_, ?_, ?_⟩
  · rw [hres]
    dsimp only
    rw [List.forall₂_map_right_iff]
    refine List.forall₂_same.mpr ?_
    intro r hr
    by_cases hm : expense_matches expense_id u r = true
    · rw [if_pos hm]
      exact ⟨fun hcon => absurd ((hmatch r).mp hm) hcon,
        fun _ _ => ⟨rfl, rfl, rfl, rfl, rfl, rfl, rfl⟩⟩
    · rw [if_neg hm]
      exact ⟨fun _ => rfl,
        fun h1 h2 => absurd ((hmatch r).mpr ⟨h1, h2⟩) hm⟩
  · rw [hres]
  · intro hnd r1 h1 r2 h2 hid1 _ hid2 _
    exact List.inj_on_of_nodup_map hnd h1 h2 (by rw [hid1, hid2])
  · intro habs
    have hcnt : db.expenses.countP (expense_matches expense_id u) = 0 :=
      List.countP_eq_zero.mpr fun r hr => by
        rw [hmatch r]
        exact habs r hr
    have hmap : (db.expenses.map fun r =>
        if expense_matches expense_id u r then
          { r with amount := d.amount, description := d.description,
                   category := d.category, date := d.date }
        else r) = db.expenses := by
      conv_rhs => rw [← List.map_id db.expenses]
      apply List.map_congr_left
      intro r hr
      rw [if_neg fun hm => habs r hr ((hmatch r).mp hm)]
      rfl
    rw [hres, hcnt, hmap]
    simp
  · rintro ⟨r, hr, hid, hus⟩
    have hpos : 0 < db.expenses.countP (expense_matches expense_id u) :=
      List.countP_pos_iff.mpr ⟨r, hr, (hmatch r).mpr ⟨hid, hus⟩⟩
    rw [hres]
    simp [hpos]

/-- Two-user store: one row of alice, one of bob. -/
def two_user_db : TrackerDB :=
  { expenses :=
      [{ id := 1, user_id := "alice", amount := 10, description := "a",
         category := "Food", date := { year := 2024, month := 1, day := 15 },
         timestamp := 1 },
       { id := 2, user_id := "bob", amount := 20, description := "b",
         category := "Misc", date := { year := 2024, month := 1, day := 16 },
         timestamp := 2 }],
    next_id := 3,
    budget := [] }

/-- C8 witness: alice updating the row owned by bob gets the
not-found-or-forbidden outcome and mutates nothing. -/
theorem C8_update_expense_frame_witness :
    update_expense 2 sample_data (some "alice") two_user_db =
      (two_user_db, OpResult.notFoundOrForbidden) :=
  (C8_update_expense_frame 2 sample_data "alice" (by decide)
    two_user_db).2.2.2.1 (by decide)

/-- A predicate holding at exactly one member of a duplicate-free list
is counted exactly once. -/
theorem countP_eq_one_of_unique {α} (p : α → Bool) (l : List α) (a : α)
    (ha : a ∈ l) (hpa : p a = true)
    (huniq : ∀ x ∈ l, p x = true → x = a) (hnd : l.Nodup) :
    l.countP p = 1 := by
  induction l with
  | nil => cases ha
  | cons b t ih =>
    rcases List.mem_cons.mp ha with rfl | hat
    · have hzero : t.countP p = 0 :=
        List.countP_eq_zero.mpr fun x hx hpx => by
          have hxb := huniq x (List.mem_cons_of_mem _ hx) hpx
          subst hxb
          exact (List.nodup_cons.mp hnd).1 hx
      rw [List.countP_cons]
      simp [hpa, hzero]
    · have hb : p b = false := by
        by_contra hbne
        have hba : b = a :=
          huniq b (List.mem_cons_self _ _) (eq_true_of_ne_false hbne)
        subst hba
        exact (List.nodup_cons.mp hnd).1 hat
      rw [List.countP_cons]
      simp only [hb, if_false]
      exact ih hat
        (fun x hx hpx => huniq x (List.mem_cons_of_mem _ hx) hpx)
        (List.nodup_cons.mp hnd).2

/-- Deleting the matching rows shortens a list by exactly the number of
matches. -/
theorem length_filter_not_add_countP {α} (p : α → Bool) (l : List α) :
    (l.filter fun a => !(p a)).length + l.countP p = l.length := by
  induction l with
  | nil => rfl
  | cons b t ih =>
    rw [List.countP_cons, List.filter_cons]
    by_cases hb : p b = true <;> simp [hb] <;> omega

/-- C9: for a logged-in user owning the targeted row, delete_expense
reports success and removes exactly that one row, touching neither
other rows nor the budget table; a second delete of the same id reports
the not-found-or-forbidden outcome and changes nothing. -/
theorem C9_delete_expense (expense_id : Nat) (u : String) (hu : u ≠ "")
    (db : TrackerDB) (hids : (db.expenses.map fun r => r.id).Nodup)
    (r0 : ExpenseRow) (h0 : r0 ∈ db.expenses) (hid : r0.id = expense_id)
    (hown : r0.user_id = u) :
    (delete_expense expense_id (some u) db).2 = OpResult.ok ∧
    (delete_expense expense_id (some u) db).1.expenses.length + 1 =
      db.expenses.length ∧
    (∀ r, r ∈ (delete_expense expense_id (some u) db).1.expenses ↔
      (r ∈ db.expenses ∧ r ≠ r0)) ∧
    (delete_expense expense_id (some u) db).1.budget = db.budget ∧
    delete_expense expense_id (some u)
        (delete_expense expense_id (some u) db).1 =
      ((delete_expense expense_id (some u) db).1,
        OpResult.notFoundOrForbidden) := by
  have htru : user_truthy (some u) = true := by
    simp [user_truthy, hu]
  have hmatch : ∀ r : ExpenseRow, expense_matches expense_id u r = true ↔
      (r.id = expense_id ∧ r.user_id = u) := by
    intro r
    simp [expense_matches]
  have hres : delete_expense expense_id (some u) db =
      ({ db with expenses :=
            db.expenses.filter fun r => !expense_matches expense_id u r },
        if 0 < db.expenses.countP (expense_matches expense_id u) then
          OpResult.ok
        else OpResult.notFoundOrForbidden) := by
    simp [delete_expense, htru]
  have hm0 : expense_matches expense_id u r0 = true :=
    (hmatch r0).mpr ⟨hid, hown⟩
  have huniq : ∀ r ∈ db.expenses,
      expense_matches expense_id u r = true → r = r0 := by
    intro r hr hm
    exact List.inj_on_of_nodup_map hids hr h0
      (by rw [((hmatch r).mp hm).1, hid])
  have hcnt : db.expenses.countP (expense_matches expense_id u) = 1 :=
    countP_eq_one_of_unique _ _ r0 h0 hm0 huniq (List.Nodup.of_map _ hids)
  have hmem : ∀ r,
      (r ∈ db.expenses.filter fun r => !expense_matches expense_id u r) ↔
      (r ∈ db.expenses ∧ r ≠ r0) := by
    intro r
    rw [List.mem_filter]
    constructor
    · rintro ⟨hr, hnm⟩
      refine ⟨hr, fun hrr => ?_⟩
      subst hrr
      rw [hm0] at hnm
      cases hnm
    · rintro ⟨hr, hne⟩
      refine ⟨hr, ?_⟩
      cases hmr : expense_matches expense_id u r
      · rfl
      · exact absurd (huniq r hr hmr) hne
  have hkept : ∀ r ∈ (db.expenses.filter fun r =>
      !expense_matches expense_id u r),
      expense_matches expense_id u r = false := by
    intro r hr
    have := (List.mem_filter.mp hr).2
    cases hmr : expense_matches expense_id u r
    · rfl
    · rw [hmr] at this
      cases this
  have hc0 : (db.expenses.filter fun r =>
      !expense_matches expense_id u r).countP
        (expense_matches expense_id u) = 0 :=
    List.countP_eq_zero.mpr fun r hr => by
      rw [hkept r hr]
      exact Bool.false_ne_true
  have hfil2 : ((db.expenses.filter fun r =>
      !expense_matches expense_id u r).filter fun r =>
        !expense_matches expense_id u r) =
      db.expenses.filter fun r => !expense_matches expense_id u r :=
    List.filter_eq_self.mpr fun r hr => by
      rw [hkept r hr]
      rfl
  refine ⟨?_, ?_, ?_, ?_, ?_⟩
  · rw [hres]
    simp [hcnt]
  · rw [hres]
    dsimp only
    have := length_filter_not_add_countP (expense_matches expense_id u)
      db.expenses
    rw [hcnt] at this
    exact this
  · intro r
    rw [hres]
    exact hmem r
  · rw [hres]
  · rw [hres]
    dsimp only
    rw [delete_expense]
    rw [if_neg (by simp [htru])]
    simp only [Option.getD_some, hc0, hfil2]
    rfl

/-- C9 witness: deleting the alice-owned row of the two-user store. -/
theorem C9_delete_expense_witness :
    (delete_expense 1 (some "alice") two_user_db).2 = OpResult.ok :=
  (C9_delete_expense 1 "alice" (by decide) two_user_db (by decide)
    { id := 1, user_id := "alice", amount := 10, description := "a",
      category := "Food", date := { year := 2024, month := 1, day := 15 },
      timestamp := 1 }
    (by decide) (by decide) (by decide)).1

end LedgerFlow
